import Mathlib

/-!
Verification of the Monty-Python-McChunkin distributed file store.

Shallow embedding of the three source files:
  src/master/master.py    - the Coordination Service (Flask endpoints)
  src/datanode/datanode.py - the storage node (chunk store/retrieve)
  src/client/client.py    - the client transfer engine (upload/download)

Python dictionaries are modelled as insertion-ordered association lists
(`List (String × _)`), matching Python's guaranteed dict iteration order.
JSON request fields obtained with `data.get(key)` are modelled as `Option`
values, with Python truthiness (`if not x`) captured by explicit `falsy`
predicates (missing field, empty string, and numeric zero are falsy).
HTTP responses are records carrying the status code and the JSON keys the
handler actually emits.
-/

namespace DFS

/-- Raw chunk bytes. -/
abbrev Bytes := List Nat

/-- Python truthiness for an optional string request field: missing (`None`)
and the empty string are falsy. -/
def falsyS : Option String → Bool
  | none => true
  | some s => s == ""

/-- Python truthiness for an optional natural-number request field: missing
(`None`) and `0` are falsy. -/
def falsyN : Option Nat → Bool
  | none => true
  | some n => n == 0

/-- Python truthiness for an optional integer request field: missing (`None`)
and `0` are falsy. -/
def falsyI : Option Int → Bool
  | none => true
  | some n => n == 0

/-- `d.get(k)` on an insertion-ordered dictionary. -/
def alistGet {α : Type} (k : String) : List (String × α) → Option α
  | [] => none
  | (k', v) :: rest => if k' = k then some v else alistGet k rest

/-- `d.get(k)` where the key itself came from `data.get(...)` and may be
missing. -/
def alistGetO {α : Type} (k : Option String) (l : List (String × α)) : Option α :=
  match k with
  | none => none
  | some s => alistGet s l

/-- `d[k] = v`: updates the existing entry in place (Python dicts keep the
original insertion position) or appends a new entry. -/
def alistSet {α : Type} (k : String) (v : α) : List (String × α) → List (String × α)
  | [] => [(k, v)]
  | (k', v') :: rest => if k' = k then (k, v) :: rest else (k', v') :: alistSet k v rest

/-- In-place mutation of one field of an existing entry
(`d[k]['field'] = ...`); a missing key is left alone. -/
def alistUpdate {α : Type} (k : String) (f : α → α) : List (String × α) → List (String × α)
  | [] => []
  | (k', v) :: rest => if k' = k then (k', f v) :: rest else (k', v) :: alistUpdate k f rest

/-- A registered datanode record (master.py lines 80-90). -/
structure NodeRec where
  url : String
  registered_at : Nat
  last_heartbeat : Nat
deriving Repr, DecidableEq

/-- One chunk-plan entry (master.py lines 153-159). -/
structure ChunkMeta where
  chunk_id : String
  node_id : String
  node_url : String
  start : Nat
  size : Nat
deriving Repr, DecidableEq

/-- A file record in the metadata store (master.py lines 161-166). -/
structure FileRec where
  file_id : String
  size : Nat
  created_at : Nat
  chunks : List ChunkMeta
deriving Repr, DecidableEq

/-- The persisted snapshot (the whole `metadata` object of master.py). -/
structure Snapshot where
  files : List (String × FileRec)
  datanodes : List (String × NodeRec)
  chunk_size : Nat
deriving Repr, DecidableEq

/-- The empty snapshot created when no METADATA_FILE exists
(master.py lines 37-41). -/
def defaultSnapshot : Snapshot :=
  { files := [], datanodes := [], chunk_size := 4 * 1024 * 1024 }

/-- The master process state: the in-memory `metadata` object, the separate
in-memory `datanodes` registry (master.py line 46), and the contents of
METADATA_FILE on disk. -/
structure MasterState where
  metadata : Snapshot
  datanodes : List (String × NodeRec)
  disk : Snapshot
deriving Repr, DecidableEq

/-- Master start-up (master.py lines 32-46): if METADATA_FILE exists its
contents become `metadata`, otherwise a fresh default snapshot is created
and written out.  In both cases the live registry `datanodes` is the fresh
empty dict of line 46: nothing is restored into it from the snapshot. -/
def initMaster : Option Snapshot → MasterState
  | some snap => { metadata := snap, datanodes := [], disk := snap }
  | none => { metadata := defaultSnapshot, datanodes := [], disk := defaultSnapshot }

/-- Rendering of an optional request field inside an f-string
(`None` prints as "None"). -/
def nodeIdStr : Option String → String
  | none => "None"
  | some s => s

/-- `is_node_registred` (master.py lines 23-30): membership test on the live
registry, returning the flag and the message. -/
def is_node_registred (node_id : Option String) (data_nodes : List (String × NodeRec)) :
    Bool × String :=
  match alistGetO node_id data_nodes with
  | some _ => (true, "Node with id " ++ nodeIdStr node_id ++ " is registered!")
  | none => (false, "Node with id " ++ nodeIdStr node_id ++ " is not registered!")

/-- Response of the /register endpoint: only the keys the handler emits on
each path are `some`. -/
structure RegisterResp where
  status : Option String
  error : Option String
  chunk_size : Option Nat
  code : Nat
deriving Repr, DecidableEq

/-- `register_datanode` (master.py lines 56-94).  If the node already exists
the handler returns 200 with only the status message (no chunk_size key) and
touches nothing; otherwise after the missing-field check it inserts the node
into both the live registry and the snapshot and saves the snapshot. -/
def register_datanode (s : MasterState) (now : Nat)
    (node_id node_url : Option String) : MasterState × RegisterResp :=
  let res := is_node_registred node_id s.datanodes
  if res.1 then
    (s, { status := some res.2, error := none, chunk_size := none, code := 200 })
  else if falsyS node_id || falsyS node_url then
    (s, { status := none, error := some "Missing node_id or node_url",
          chunk_size := none, code := 400 })
  else
    let nid := node_id.getD ""
    let nrec : NodeRec :=
      { url := node_url.getD "", registered_at := now, last_heartbeat := now }
    let md : Snapshot :=
      { s.metadata with datanodes := alistSet nid nrec s.metadata.datanodes }
    ({ metadata := md, datanodes := alistSet nid nrec s.datanodes, disk := md },
     { status := some "registered", error := none,
       chunk_size := some md.chunk_size, code := 200 })

/-- Response shape of /heartbeat. -/
structure SimpleResp where
  status : Option String
  error : Option String
  code : Nat
deriving Repr, DecidableEq

/-- `heartbeat` (master.py lines 97-115): 400 unless node_id is truthy and
present in the live `datanodes` registry; on success the last_heartbeat of
the live and snapshot records is updated and the snapshot saved. -/
def heartbeat (s : MasterState) (now : Nat) (node_id : Option String) :
    MasterState × SimpleResp :=
  if falsyS node_id || (alistGetO node_id s.datanodes).isNone then
    (s, { status := none, error := some "Unknown node_id", code := 400 })
  else
    let nid := node_id.getD ""
    let upd := fun (r : NodeRec) => { r with last_heartbeat := now }
    let md : Snapshot :=
      { s.metadata with datanodes := alistUpdate nid upd s.metadata.datanodes }
    ({ metadata := md, datanodes := alistUpdate nid upd s.datanodes, disk := md },
     { status := some "alive", error := none, code := 200 })

/-- `num_chunks` (master.py line 136): ceiling division written as
`(filesize + chunk_size - 1) // chunk_size`. -/
def num_chunks (filesize chunk_size : Nat) : Nat :=
  (filesize + chunk_size - 1) / chunk_size

/-- Placeholder node pair; never reached because the plan is only built when
the registry is non-empty and `i % length < length`. -/
def noNode : String × NodeRec := ("", { url := "", registered_at := 0, last_heartbeat := 0 })

/-- The chunk-plan loop of `create_file` (master.py lines 146-159): chunk `i`
goes to `active_nodes[i % len(active_nodes)]`, starts at `i * chunk_size` and
has size `min(chunk_size, filesize - i * chunk_size)`. -/
def chunk_plan (file_id : String) (chunk_size filesize : Nat)
    (active : List (String × NodeRec)) : List ChunkMeta :=
  (List.range (num_chunks filesize chunk_size)).map (fun i =>
    let entry := active.getD (i % active.length) noNode
    { chunk_id := file_id ++ "_" ++ toString i,
      node_id := entry.1,
      node_url := entry.2.url,
      start := i * chunk_size,
      size := min chunk_size (filesize - i * chunk_size) })

/-- Response shape of POST /file. -/
structure CreateResp where
  code : Nat
  error : Option String
  file_id : Option String
  chunks : Option (List ChunkMeta)
  chunk_size : Option Nat
deriving Repr, DecidableEq

/-- `create_file` (master.py lines 117-174).  `not filename or not filesize`
rejects a missing OR falsy field (so filesize 0 is rejected with 400); an
empty live registry gives 503 before any state is touched; otherwise the
file record is stored under `filename` and the snapshot saved.
`now_ms` stands for `int(time.time() * 1000)` and `now` for `time.time()`. -/
def create_file (s : MasterState) (now_ms now : Nat)
    (filename : Option String) (filesize : Option Nat) : MasterState × CreateResp :=
  if falsyS filename || falsyN filesize then
    (s, { code := 400, error := some "Missing filename or filesize",
          file_id := none, chunks := none, chunk_size := none })
  else if s.datanodes = [] then
    (s, { code := 503, error := some "No active datanodes available",
          file_id := none, chunks := none, chunk_size := none })
  else
    let fname := filename.getD ""
    let fsz := filesize.getD 0
    let cs := s.metadata.chunk_size
    let fid := toString now_ms
    let chunks := chunk_plan fid cs fsz s.datanodes
    let frec : FileRec :=
      { file_id := fid, size := fsz, created_at := now, chunks := chunks }
    let md : Snapshot := { s.metadata with files := alistSet fname frec s.metadata.files }
    ({ metadata := md, datanodes := s.datanodes, disk := md },
     { code := 200, error := none, file_id := some fid,
       chunks := some chunks, chunk_size := some cs })

/-- Response shape of POST /stats. -/
structure StatsResp where
  code : Nat
  error : Option String
  status : Option String
  throughput : Option ℚ
deriving Repr, DecidableEq

/-- A /stats request body; every field is fetched with `data.get`. -/
structure StatsReq where
  node_id : Option String
  operation : Option String
  bytes : Option Int
  duration_ms : Option Int
deriving Repr, DecidableEq

/-- `record_stats` (master.py lines 200-218): rejects with 400 when any of
the four fields is missing or falsy, otherwise computes
`(bytes / 1024 / 1024) / (duration_ms / 1000)` (exact rational here). -/
def record_stats (req : StatsReq) : StatsResp :=
  if falsyS req.node_id || falsyS req.operation ||
     falsyI req.bytes || falsyI req.duration_ms then
    { code := 400, error := some "Missing required fields",
      status := none, throughput := none }
  else
    let b : ℚ := (req.bytes.getD 0 : Int)
    let d : ℚ := (req.duration_ms.getD 0 : Int)
    { code := 200, error := none, status := some "recorded",
      throughput := some ((b / 1024 / 1024) / (d / 1000)) }

/-! ### Checkpoint write path (save_metadata), modelled as an on-disk trace -/

/-- Observable contents of a file on disk: either a complete, well-formed
snapshot document, or the truncated/incomplete contents present while an
in-place write is still running. -/
inductive FileContent where
  | snapshotDoc (s : Snapshot)
  | truncatedDoc
deriving Repr, DecidableEq

/-- Whether on-disk contents are a complete snapshot a reloading process
could parse. -/
def validSnapshotDoc : FileContent → Bool
  | .snapshotDoc _ => true
  | .truncatedDoc => false

/-- The durable state visible to readers: the canonical METADATA_FILE and a
(possible) staging location next to it. -/
structure DiskFS where
  canonical : FileContent
  staging : Option FileContent
deriving Repr, DecidableEq

/-- `save_metadata` (master.py lines 48-54) as the ordered sequence of
on-disk states a concurrent reader or a crash can observe:
`open(METADATA_FILE, 'w')` truncates the canonical file in place, then
`json.dump` writes the new contents.  No staging file is created and no
rename happens. -/
def save_metadata (fs : DiskFS) (snap : Snapshot) : List DiskFS :=
  [fs,
   { fs with canonical := .truncatedDoc },
   { fs with canonical := .snapshotDoc snap }]

/-! ### Datanode chunk store (datanode.py) -/

/-- The chunk files under the datanode's DATA_DIR, keyed by chunk_id. -/
abbrev ChunkStore := List (String × Bytes)

/-- Response of PUT /chunk/<chunk_id>. -/
structure StoreResp where
  status : String
  chunk_id : String
  size : Nat
  node_id : String
deriving Repr, DecidableEq

/-- `store_chunk` (datanode.py lines 100-139): writes the request body under
the chunk_id key (creating or replacing the file) and reports the size. -/
def store_chunk (st : ChunkStore) (node_id chunk_id : String) (data : Bytes) :
    ChunkStore × StoreResp :=
  (alistSet chunk_id data st,
   { status := "stored", chunk_id := chunk_id, size := data.length, node_id := node_id })

/-- Result of GET /chunk/<chunk_id>: 404 when the chunk file does not exist,
otherwise the raw stored bytes. -/
inductive RetrieveResult where
  | notFound
  | ok (data : Bytes)
deriving Repr, DecidableEq

/-- `retrieve_chunk` (datanode.py lines 141-179): `os.path.exists` check then
read the whole file back. -/
def retrieve_chunk (st : ChunkStore) (chunk_id : String) : RetrieveResult :=
  match alistGet chunk_id st with
  | none => .notFound
  | some d => .ok d

/-! ### Client download path (client.py lines 162-208)

`ThreadPoolExecutor.map(download_chunk, chunks_info)` runs the retrievals
concurrently but, by the documented semantics of `Executor.map`, yields the
results in the order of the input iterable, not in completion order.  We
model the pool explicitly: a completion schedule `order` (the temporal order
in which the worker tasks finish) fills a result buffer indexed by input
position; `list(...)` then reads the buffer in input-index order.  The
schedule therefore affects only the timing of the writes, and the theorem
quantifies over every schedule. -/

/-- A chunk as returned by `download_chunk` (client.py lines 70-89). -/
structure DChunk where
  chunk_id : String
  start : Nat
  data : Bytes
deriving Repr, DecidableEq

/-- `download_chunk` (client.py lines 70-89) against a datanode chunk store
`store` mapping chunk_id to stored bytes; a missing chunk (non-200 response)
yields `none`, mirroring the `return None` failure path. -/
def download_chunk (store : String → Option Bytes) (c : ChunkMeta) : Option DChunk :=
  match store c.chunk_id with
  | some d => some { chunk_id := c.chunk_id, start := c.start, data := d }
  | none => none

/-- The value task `i` of the pool computes: `download_chunk` applied to the
`i`-th plan entry. -/
def taskResult (store : String → Option Bytes) (plan : List ChunkMeta) (i : Nat) :
    Option DChunk :=
  match plan.get? i with
  | some c => download_chunk store c
  | none => none

/-- Runs the completion schedule: each finishing task `i` writes its result
into slot `i` of the buffer. -/
def fillSlots {α : Type} (f : Nat → α) : List Nat → List (Option α) → List (Option α)
  | [], buf => buf
  | i :: rest, buf => fillSlots f rest (buf.set i (some (f i)))

/-- The full download merge (client.py lines 183-200): run the pool under
completion schedule `order`, collect the results in input order
(`list(executor.map(...))`), drop failed chunks
(`[c for c in downloaded_chunks if c is not None]`), and concatenate the
data fields in list order — the offset sort on line 194 is commented out in
the source, so no reordering happens here. -/
def download (plan : List ChunkMeta) (store : String → Option Bytes)
    (order : List Nat) : Bytes :=
  let buf := fillSlots (taskResult store plan) order (List.replicate plan.length none)
  let downloaded := buf.filterMap id
  let downloaded_chunks := downloaded.filterMap id
  (downloaded_chunks.map DChunk.data).flatten

/-! ### Concrete fixtures used by closed theorems and witnesses -/

/-- A registered datanode record. -/
def node1 : NodeRec := { url := "http://dn1:8001", registered_at := 1, last_heartbeat := 1 }

/-- A master state with exactly one registered node and chunk_size 4. -/
def sOne : MasterState :=
  { metadata := { files := [], datanodes := [("n1", node1)], chunk_size := 4 },
    datanodes := [("n1", node1)],
    disk := { files := [], datanodes := [("n1", node1)], chunk_size := 4 } }

/-- A snapshot, as left on disk by a previous run that had registered the
node "n1" and then saved. -/
def snapC2 : Snapshot :=
  { files := [], datanodes := [("n1", node1)], chunk_size := 4 }

/-- Basic sanity of the map update: reading back the key just written. -/
theorem alistGet_alistSet {α : Type} (k : String) (v : α) (l : List (String × α)) :
    alistGet k (alistSet k v l) = some v := by
  induction l with
  | nil => simp [alistSet, alistGet]
  | cons p rest ih =>
      obtain ⟨k', v'⟩ := p
      by_cases h : k' = k
      · simp [alistSet, alistGet, h]
      · simp [alistSet, alistGet, h, ih]

/-! ### Claim C2 -/

/-- Claim C2 (code behaviour at the failing input): after a restart that
loads a snapshot whose datanodes mapping contains "n1", the live registry is
still empty, so a Heartbeat for "n1" fails with 400 (leaving the state
unchanged) and CreateFile fails with 503 instead of assigning chunks to
"n1".  The loaded snapshot is not treated as the source of truth for
registration. -/
theorem claim_C2_snapshot_nodes_not_registered :
    (heartbeat (initMaster (some snapC2)) 9 (some "n1")).2.code = 400
    ∧ (heartbeat (initMaster (some snapC2)) 9 (some "n1")).2.error = some "Unknown node_id"
    ∧ (heartbeat (initMaster (some snapC2)) 9 (some "n1")).1 = initMaster (some snapC2)
    ∧ (create_file (initMaster (some snapC2)) 5 6 (some "f") (some 3)).2.code = 503
    ∧ (initMaster (some snapC2)).metadata.datanodes = [("n1", node1)] := by decide

/-! ### Claim C3 -/

/-- Claim C3 (code behaviour at the failing input): with a node registered,
CreateFile with filesize = 0 is rejected with 400 "Missing filename or
filesize" — the Python truthiness test `not filesize` treats 0 like a
missing field — instead of succeeding with an empty chunk plan. -/
theorem claim_C3_zero_filesize_rejected :
    create_file sOne 7 8 (some "f") (some 0) =
      (sOne, { code := 400, error := some "Missing filename or filesize",
               file_id := none, chunks := none, chunk_size := none }) := by decide

/-! ### Claim C4 -/

/-- Claim C4 (counterexample): a second Register for the already-registered
node "n1" returns 200 but its response carries no chunk_size key, refuting
"returns success with the current chunk_size in the response". -/
theorem claim_C4_counterexample :
    (register_datanode sOne 9 (some "n1") (some "http://dn1:8001")).2.code = 200
    ∧ (register_datanode sOne 9 (some "n1") (some "http://dn1:8001")).2.chunk_size = none := by
  decide

/-- Claim C4 (amended): for every node_id already present in the registry, a
second Register call returns HTTP 200 with only the status message — without
chunk_size in the response — and leaves the whole state (live registry,
metadata, persisted snapshot, hence registered_at) unchanged. -/
theorem claim_C4_duplicate_register (s : MasterState) (now : Nat) (nid url : String)
    (r : NodeRec) (h : alistGet nid s.datanodes = some r) :
    register_datanode s now (some nid) (some url) =
      (s, { status := some ("Node with id " ++ nid ++ " is registered!"),
            error := none, chunk_size := none, code := 200 }) := by
  simp [register_datanode, is_node_registred, alistGetO, h, nodeIdStr]

/-- Witness for the amended Claim C4 at a concrete state. -/
theorem claim_C4_duplicate_register_witness :
    register_datanode sOne 9 (some "n1") (some "http://other") =
      (sOne, { status := some ("Node with id " ++ "n1" ++ " is registered!"),
               error := none, chunk_size := none, code := 200 }) :=
  claim_C4_duplicate_register sOne 9 "n1" "http://other" node1 (by decide)

/-! ### Claim C5 -/

/-- Claim C5 (counterexample): saving a new snapshot over an existing valid
one exposes an intermediate on-disk state (the canonical file truncated by
`open(..., 'w')`) that is not a valid snapshot, and no staging file is ever
written — refuting "writes to a staging location and then atomically
replaces the canonical location". -/
theorem claim_C5_counterexample :
    ∃ st ∈ save_metadata { canonical := .snapshotDoc defaultSnapshot, staging := none }
        { files := [], datanodes := [], chunk_size := 1 },
      validSnapshotDoc st.canonical = false ∧ st.staging = none := by decide

/-- Claim C5 (amended): Save overwrites the canonical snapshot file in
place — truncate, then write — using no staging location; a reader (or a
reload after a crash) between the truncation and the completed write
observes a truncated, invalid snapshot, while a completed Save leaves
exactly the new snapshot. -/
theorem claim_C5_save_not_atomic (fs : DiskFS) (snap : Snapshot) :
    ((save_metadata fs snap).head? = some fs)
    ∧ (∃ st ∈ save_metadata fs snap, validSnapshotDoc st.canonical = false)
    ∧ (∀ st ∈ save_metadata fs snap, st.staging = fs.staging)
    ∧ ((save_metadata fs snap).getLast? =
        some { fs with canonical := .snapshotDoc snap }) := by
  refine ⟨rfl, ⟨{ fs with canonical := .truncatedDoc }, by simp [save_metadata], rfl⟩, ?_, rfl⟩
  intro st hst
  simp only [save_metadata, List.mem_cons, List.mem_singleton] at hst
  rcases hst with h | h | h | h
  · subst h; rfl
  · subst h; rfl
  · subst h; rfl
  · cases h

/-! ### Claim C8 -/

/-- Claim C8: CreateFile with truthy filename and filesize but an empty node
registry fails with 503 "No active datanodes available" and commits no state
at all: the returned state — files mapping, live registry and persisted
snapshot — is exactly the input state. -/
theorem claim_C8_no_nodes_no_partial_state (s : MasterState) (a b : Nat)
    (fn : String) (k : Nat) (hfn : fn ≠ "") (hk : k ≠ 0)
    (hact : s.datanodes = []) :
    create_file s a b (some fn) (some k) =
      (s, { code := 503, error := some "No active datanodes available",
            file_id := none, chunks := none, chunk_size := none }) := by
  simp [create_file, falsyS, falsyN, hfn, hk, hact]

/-- Witness for Claim C8 on the freshly initialized master. -/
theorem claim_C8_no_nodes_no_partial_state_witness :
    create_file (initMaster none) 7 8 (some "f") (some 10) =
      (initMaster none,
       { code := 503, error := some "No active datanodes available",
         file_id := none, chunks := none, chunk_size := none }) :=
  claim_C8_no_nodes_no_partial_state (initMaster none) 7 8 "f" 10
    (by decide) (by decide) rfl

/-! ### Claim C9 -/

/-- Claim C9: RetrieveChunk answers NotFound exactly for chunk_ids that are
not in the store (and then returns no data), and for a stored chunk_id it
returns precisely the stored bytes — also immediately after a StoreChunk of
those bytes — never corrupted or zero-filled data. -/
theorem claim_C9_retrieve_exact (st : ChunkStore) (cid : String) :
    (retrieve_chunk st cid = .notFound ↔ alistGet cid st = none)
    ∧ (∀ d, alistGet cid st = some d → retrieve_chunk st cid = .ok d)
    ∧ (∀ nid d, retrieve_chunk (store_chunk st nid cid d).1 cid = .ok d) := by
  refine ⟨?_, ?_, ?_⟩
  · cases h : alistGet cid st <;> simp [retrieve_chunk, h]
  · intro d h; simp [retrieve_chunk, h]
  · intro nid d; simp [retrieve_chunk, store_chunk, alistGet_alistSet]

/-- Witness for Claim C9 at a concrete two-chunk store. -/
theorem claim_C9_retrieve_exact_witness :
    (retrieve_chunk [("a_0", [1, 2]), ("a_1", [3])] "missing" = .notFound
      ↔ alistGet "missing" [("a_0", [1, 2]), ("a_1", [3])] = none)
    ∧ (retrieve_chunk [("a_0", [1, 2]), ("a_1", [3])] "a_1" = .ok [3]) :=
  ⟨(claim_C9_retrieve_exact [("a_0", [1, 2]), ("a_1", [3])] "missing").1,
   (claim_C9_retrieve_exact [("a_0", [1, 2]), ("a_1", [3])] "a_1").2.1 [3] (by decide)⟩

/-! ### Claim C10 -/

/-- Claim C10: /stats rejects with 400 exactly the reports in which node_id,
operation, bytes or duration_ms is missing or falsy (so bytes = 0 or
duration_ms = 0 is rejected even though present), computes no throughput on
rejection, and on the accepted path the divisor duration_ms / 1000 is
provably nonzero, so the throughput division never divides by zero. -/
theorem claim_C10_stats_rejects_falsy (req : StatsReq) :
    ((record_stats req).code = 400 ↔
      (falsyS req.node_id || falsyS req.operation ||
       falsyI req.bytes || falsyI req.duration_ms) = true)
    ∧ ((record_stats req).code = 400 → (record_stats req).throughput = none)
    ∧ ((falsyS req.node_id || falsyS req.operation ||
        falsyI req.bytes || falsyI req.duration_ms) = false →
        ∃ d : Int, req.duration_ms = some d ∧ d ≠ 0 ∧ ((d : ℚ) / 1000) ≠ 0 ∧
          (record_stats req).throughput =
            some ((((req.bytes.getD 0 : Int) : ℚ) / 1024 / 1024) / ((d : ℚ) / 1000))) := by
  cases hB : (falsyS req.node_id || falsyS req.operation ||
      falsyI req.bytes || falsyI req.duration_ms) with
  | true =>
      refine ⟨by simp [record_stats, hB], by simp [record_stats, hB], ?_⟩
      intro h; cases h
  | false =>
      obtain ⟨⟨⟨h1, h2⟩, h3⟩, h4⟩ :
          ((falsyS req.node_id = false ∧ falsyS req.operation = false) ∧
            falsyI req.bytes = false) ∧ falsyI req.duration_ms = false := by
        rcases Bool.or_eq_false_iff.1 hB with ⟨h123, h4⟩
        rcases Bool.or_eq_false_iff.1 h123 with ⟨h12, h3⟩
        rcases Bool.or_eq_false_iff.1 h12 with ⟨h1, h2⟩
        exact ⟨⟨⟨h1, h2⟩, h3⟩, h4⟩
      refine ⟨by simp [record_stats, hB], by simp [record_stats, hB], ?_⟩
      intro _
      cases hd : req.duration_ms with
      | none => rw [hd] at h4; cases h4
      | some d =>
          rw [hd] at h4
          have hd0 : d ≠ 0 := by
            intro h; subst h; simp [falsyI] at h4
          refine ⟨d, rfl, hd0, ?_, ?_⟩
          · exact div_ne_zero (by exact_mod_cast hd0) (by norm_num)
          · simp [record_stats, h1, h2, h3, h4, hd]

/-- Witness for Claim C10 at a concrete accepted report. -/
theorem claim_C10_stats_rejects_falsy_witness :
    ((record_stats
        { node_id := some "1", operation := some "read",
          bytes := some 2048, duration_ms := some 5 }).code = 400 ↔
      (falsyS (some "1") || falsyS (some "read") ||
       falsyI (some 2048) || falsyI (some 5)) = true)
    ∧ (∃ d : Int,
        (some (5 : Int)) = some d ∧ d ≠ 0 ∧ ((d : ℚ) / 1000) ≠ 0 ∧
        (record_stats
          { node_id := some "1", operation := some "read",
            bytes := some 2048, duration_ms := some 5 }).throughput =
          some ((((((some (2048 : Int)).getD 0 : Int)) : ℚ) / 1024 / 1024) / ((d : ℚ) / 1000))) :=
  ⟨(claim_C10_stats_rejects_falsy
      { node_id := some "1", operation := some "read",
        bytes := some 2048, duration_ms := some 5 }).1,
   (claim_C10_stats_rejects_falsy
      { node_id := some "1", operation := some "read",
        bytes := some 2048, duration_ms := some 5 }).2.2 (by decide)⟩

/-! ### Claim C6: the chunk plan tiles the file -/

/-- The chunk sizes `min(chunk_size, filesize - i*chunk_size)` over
`ceil(filesize / chunk_size)` chunks sum to exactly `filesize`. -/
theorem sum_min_sizes (cs : Nat) (hcs : 0 < cs) :
    ∀ n fsz, n = (fsz + cs - 1) / cs →
      ((List.range n).map (fun i => min cs (fsz - i * cs))).sum = fsz := by
  intro n
  induction n with
  | zero =>
      intro fsz h
      have h0 : fsz + cs - 1 < cs := (Nat.div_eq_zero_iff hcs).1 h.symm
      have hf0 : fsz = 0 := by omega
      simp [hf0]
  | succ n ih =>
      intro fsz h
      have hfsz1 : 1 ≤ fsz := by
        by_contra hcon
        have hf0 : fsz = 0 := by omega
        subst hf0
        have : (0 + cs - 1) / cs = 0 := (Nat.div_eq_zero_iff hcs).2 (by omega)
        omega
      by_cases hle : fsz ≤ cs
      · have hn : n = 0 := by
          have h2 : (fsz + cs - 1) / cs < 2 := by
            rw [Nat.div_lt_iff_lt_mul hcs]
            omega
          omega
        subst hn
        have hsum : ((List.range 1).map (fun i => min cs (fsz - i * cs))).sum
            = min cs fsz := by
          rw [show List.range 1 = [0] from rfl, List.map_cons, List.map_nil,
            List.sum_cons, List.sum_nil]
          omega
        rw [hsum]
        omega
      · push_neg at hle
        have hstep : n = (fsz - cs + cs - 1) / cs := by
          have h1 : fsz + cs - 1 = (fsz - 1) + cs := by omega
          have h2 : fsz - cs + cs - 1 = fsz - 1 := by omega
          rw [h2]
          rw [h1, Nat.add_div_right _ hcs] at h
          omega
        have ihv := ih (fsz - cs) hstep
        rw [List.range_succ_eq_map]
        rw [List.map_cons, List.map_map, List.sum_cons]
        have hmap : (List.range n).map ((fun i => min cs (fsz - i * cs)) ∘ Nat.succ)
            = (List.range n).map (fun i => min cs (fsz - cs - i * cs)) := by
          apply List.map_congr_left
          intro i _
          have harith : fsz - Nat.succ i * cs = fsz - cs - i * cs := by
            rw [Nat.succ_mul, Nat.sub_sub, Nat.add_comm]
          simp [Function.comp, harith]
        rw [hmap, ihv]
        have hmin : min cs (fsz - 0 * cs) = cs := by omega
        rw [hmin]
        omega

/-- Every byte offset below the file size lies in exactly one chunk of the
plan computed by `create_file`. -/
theorem chunk_cover_unique (cs fsz b : Nat) (hcs : 0 < cs) (hb : b < fsz) :
    ∃! i : Nat, i < num_chunks fsz cs
      ∧ i * cs ≤ b ∧ b < i * cs + min cs (fsz - i * cs) := by
  have hnum : num_chunks fsz cs = (fsz - 1) / cs + 1 := by
    unfold num_chunks
    have h1 : fsz + cs - 1 = (fsz - 1) + cs := by omega
    rw [h1, Nat.add_div_right _ hcs]
  refine ⟨b / cs, ⟨?_, ?_, ?_⟩, ?_⟩
  · rw [hnum]
    have h2 : b / cs ≤ (fsz - 1) / cs := Nat.div_le_div_right (by omega)
    omega
  · exact Nat.div_mul_le_self b cs
  · have hA : b < b / cs * cs + cs := Nat.lt_div_mul_add hcs
    have hle : b / cs * cs ≤ b := Nat.div_mul_le_self b cs
    rcases Nat.le_total cs (fsz - b / cs * cs) with hm | hm
    · rw [Nat.min_eq_left hm]; exact hA
    · rw [Nat.min_eq_right hm]; omega
  · rintro j ⟨-, hj1, hj2⟩
    have hj3 : b < j * cs + cs :=
      lt_of_lt_of_le hj2 (Nat.add_le_add_left (Nat.min_le_left _ _) _)
    have : b / cs = j :=
      Nat.div_eq_of_lt_le hj1 (by rw [Nat.succ_mul]; exact hj3)
    omega

/-- Shape of the `i`-th plan entry (master.py lines 147-159). -/
theorem chunk_plan_get (fid : String) (cs fsz : Nat) (active : List (String × NodeRec))
    (i : Nat) (h : i < (chunk_plan fid cs fsz active).length) :
    (chunk_plan fid cs fsz active).get ⟨i, h⟩ =
      { chunk_id := fid ++ "_" ++ toString i,
        node_id := (active.getD (i % active.length) noNode).1,
        node_url := (active.getD (i % active.length) noNode).2.url,
        start := i * cs,
        size := min cs (fsz - i * cs) } := by
  simp [chunk_plan, List.get_eq_getElem]

/-- Length of the chunk plan. -/
theorem chunk_plan_length (fid : String) (cs fsz : Nat) (active : List (String × NodeRec)) :
    (chunk_plan fid cs fsz active).length = num_chunks fsz cs := by
  simp [chunk_plan]

/-- Claim C6: for every filesize > 0 and every registry with at least one
node (and positive chunk_size), the chunk plan returned by CreateFile has
chunk i starting at i * chunk_size with size
min(chunk_size, filesize - i * chunk_size); the sizes sum exactly to
filesize and the [start, start+size) ranges tile [0, filesize): every byte
offset below filesize is covered by exactly one chunk (no gaps, no
overlaps). -/
theorem claim_C6_chunk_plan_tiles (s : MasterState) (now_ms now : Nat)
    (fn : String) (fsz : Nat) (hfn : fn ≠ "") (hfsz : 0 < fsz)
    (hact : s.datanodes ≠ []) (hcs : 0 < s.metadata.chunk_size) :
    ∃ plan, (create_file s now_ms now (some fn) (some fsz)).2.chunks = some plan
      ∧ plan = chunk_plan (toString now_ms) s.metadata.chunk_size fsz s.datanodes
      ∧ plan.length = num_chunks fsz s.metadata.chunk_size
      ∧ (∀ i (h : i < plan.length),
          (plan.get ⟨i, h⟩).start = i * s.metadata.chunk_size
          ∧ (plan.get ⟨i, h⟩).size
              = min s.metadata.chunk_size (fsz - i * s.metadata.chunk_size))
      ∧ (plan.map ChunkMeta.size).sum = fsz
      ∧ (∀ b, b < fsz → ∃! i : Nat, ∃ h : i < plan.length,
          (plan.get ⟨i, h⟩).start ≤ b
          ∧ b < (plan.get ⟨i, h⟩).start + (plan.get ⟨i, h⟩).size) := by
  set cs := s.metadata.chunk_size with hcsdef
  refine ⟨chunk_plan (toString now_ms) cs fsz s.datanodes, ?_, rfl, ?_, ?_, ?_, ?_⟩
  · have hfS : falsyS (some fn) = false := by simp [falsyS, hfn]
    have hfz : fsz ≠ 0 := by omega
    have hfN : falsyN (some fsz) = false := by simp [falsyN, hfz]
    simp [create_file, hfS, hfN, hact]
  · exact chunk_plan_length _ _ _ _
  · intro i h
    rw [chunk_plan_get]
    exact ⟨rfl, rfl⟩
  · have hmaps : (chunk_plan (toString now_ms) cs fsz s.datanodes).map ChunkMeta.size
        = (List.range (num_chunks fsz cs)).map (fun i => min cs (fsz - i * cs)) := by
      simp [chunk_plan, List.map_map]
    rw [hmaps]
    exact sum_min_sizes cs hcs _ fsz rfl
  · intro b hb
    obtain ⟨i, ⟨hin, hi1, hi2⟩, huniq⟩ := chunk_cover_unique cs fsz b hcs hb
    have hlen : (chunk_plan (toString now_ms) cs fsz s.datanodes).length
        = num_chunks fsz cs := chunk_plan_length _ _ _ _
    refine ⟨i, ⟨by omega, ?_⟩, ?_⟩
    · rw [chunk_plan_get]
      exact ⟨hi1, hi2⟩
    · rintro j ⟨hj, hcov⟩
      rw [chunk_plan_get] at hcov
      exact huniq j ⟨by omega, hcov⟩

/-- Witness for Claim C6: chunk_size 4, filesize 10, one registered node. -/
theorem claim_C6_chunk_plan_tiles_witness :
    ∃ plan, (create_file sOne 7 8 (some "f") (some 10)).2.chunks = some plan
      ∧ plan = chunk_plan (toString 7) sOne.metadata.chunk_size 10 sOne.datanodes
      ∧ plan.length = num_chunks 10 sOne.metadata.chunk_size
      ∧ (∀ i (h : i < plan.length),
          (plan.get ⟨i, h⟩).start = i * sOne.metadata.chunk_size
          ∧ (plan.get ⟨i, h⟩).size
              = min sOne.metadata.chunk_size (10 - i * sOne.metadata.chunk_size))
      ∧ (plan.map ChunkMeta.size).sum = 10
      ∧ (∀ b, b < 10 → ∃! i : Nat, ∃ h : i < plan.length,
          (plan.get ⟨i, h⟩).start ≤ b
          ∧ b < (plan.get ⟨i, h⟩).start + (plan.get ⟨i, h⟩).size) :=
  claim_C6_chunk_plan_tiles sOne 7 8 "f" 10 (by decide) (by decide)
    (by decide) (by decide)

/-! ### Claim C7: round-robin fairness -/

/-- How `(K+1) % N` and `(K+1) / N` evolve from `K % N` and `K / N`. -/
theorem mod_div_succ (N K : Nat) (hN : 0 < N) :
    (K % N + 1 < N → (K + 1) % N = K % N + 1 ∧ (K + 1) / N = K / N)
    ∧ (K % N + 1 = N → (K + 1) % N = 0 ∧ (K + 1) / N = K / N + 1) := by
  have hdm := Nat.div_add_mod K N
  constructor
  · intro hc
    have hK : K + 1 = N * (K / N) + (K % N + 1) := by omega
    constructor
    · rw [hK, Nat.mul_add_mod]
      exact Nat.mod_eq_of_lt hc
    · rw [hK, Nat.mul_add_div hN]
      have : (K % N + 1) / N = 0 := (Nat.div_eq_zero_iff hN).2 hc
      omega
  · intro hc
    have hK : K + 1 = N * (K / N + 1) := by
      rw [Nat.mul_succ]
      omega
    constructor
    · rw [hK, Nat.mul_mod_right]
    · rw [hK, Nat.mul_div_cancel_left _ hN]

/-- Number of indices below `K` that hit residue `j` modulo `N`. -/
theorem count_mod_range (N j : Nat) (hN : 0 < N) (hj : j < N) :
    ∀ K, (List.range K).countP (fun i => i % N == j)
      = K / N + (if j < K % N then 1 else 0) := by
  intro K
  induction K with
  | zero => simp
  | succ K ih =>
      rw [List.range_succ, List.countP_append, ih]
      have hone : List.countP (fun i => i % N == j) [K] = if K % N = j then 1 else 0 := by
        simp [List.countP_cons]
      rw [hone]
      have hmlt : K % N < N := Nat.mod_lt _ hN
      rcases Nat.lt_or_ge (K % N + 1) N with hc | hc
      · obtain ⟨hm, hd⟩ := (mod_div_succ N K hN).1 hc
        rw [hm, hd]
        split_ifs <;> omega
      · have hc' : K % N + 1 = N := by omega
        obtain ⟨hm, hd⟩ := (mod_div_succ N K hN).2 hc'
        rw [hm, hd]
        split_ifs <;> omega

/-- When `K` is not a multiple of `N`, the ceiling `(K + N - 1) / N` is one
more than the floor. -/
theorem ceil_div_of_mod_ne_zero (K N : Nat) (hN : 0 < N) (hr : K % N ≠ 0) :
    (K + N - 1) / N = K / N + 1 := by
  have hdm := Nat.div_add_mod K N
  have hmlt : K % N < N := Nat.mod_lt _ hN
  have hK : K + N - 1 = N * (K / N) + (K % N + N - 1) := by omega
  rw [hK, Nat.mul_add_div hN]
  have h1 : (K % N + N - 1) / N = 1 := by
    apply Nat.div_eq_of_lt_le
    · omega
    · rw [Nat.succ_mul]
      omega
  omega

/-- And when `K` is a multiple of `N`, floor and ceiling agree. -/
theorem ceil_div_of_mod_eq_zero (K N : Nat) (hN : 0 < N) (hr : K % N = 0) :
    (K + N - 1) / N = K / N := by
  have hdm := Nat.div_add_mod K N
  have hK : K + N - 1 = N * (K / N) + (N - 1) := by omega
  rw [hK, Nat.mul_add_div hN]
  have h1 : (N - 1) / N = 0 := (Nat.div_eq_zero_iff hN).2 (by omega)
  omega

/-- Claim C7: with K = num_chunks chunks assigned round-robin over the N
registered nodes (node of chunk i is `active_nodes[i % N]`), each node
receives either ⌊K/N⌋ or ⌈K/N⌉ = (K + N - 1) / N chunks. -/
theorem claim_C7_round_robin_fair (fid : String) (cs fsz : Nat)
    (active : List (String × NodeRec)) (hact : active ≠ [])
    (hnd : (active.map Prod.fst).Nodup) (j : Nat) (hj : j < active.length) :
    (chunk_plan fid cs fsz active).countP
        (fun c => c.node_id == (active.get ⟨j, hj⟩).1)
      = num_chunks fsz cs / active.length
    ∨ (chunk_plan fid cs fsz active).countP
        (fun c => c.node_id == (active.get ⟨j, hj⟩).1)
      = (num_chunks fsz cs + active.length - 1) / active.length := by
  have hN : 0 < active.length := List.length_pos.2 hact
  have h1 : (chunk_plan fid cs fsz active).countP
        (fun c => c.node_id == (active.get ⟨j, hj⟩).1)
      = (List.range (num_chunks fsz cs)).countP (fun i => i % active.length == j) := by
    rw [chunk_plan, List.countP_map]
    apply List.countP_congr
    intro i _
    have hi : i % active.length < active.length := Nat.mod_lt _ hN
    have hgetD : active.getD (i % active.length) noNode
        = active.get ⟨i % active.length, hi⟩ := by
      rw [List.getD_eq_getElem active noNode hi, List.get_eq_getElem]
    simp only [Function.comp, hgetD, beq_iff_eq]
    constructor
    · intro hfst
      have hmm : (active.map Prod.fst).get ⟨i % active.length, by simpa using hi⟩
          = (active.map Prod.fst).get ⟨j, by simpa using hj⟩ := by
        simpa [List.get_eq_getElem, List.getElem_map] using hfst
      have hfin := (hnd.get_inj_iff).1 hmm
      simpa using congrArg Fin.val hfin
    · intro hij
      simp [hij]
  rw [h1, count_mod_range active.length j hN hj]
  by_cases hr : num_chunks fsz cs % active.length = 0
  · left
    rw [hr]
    simp
  · by_cases hjr : j < num_chunks fsz cs % active.length
    · right
      rw [ceil_div_of_mod_ne_zero _ _ hN hr, if_pos hjr]
    · left
      rw [if_neg hjr]
      omega

/-- Witness for Claim C7: 3 chunks over 2 nodes, node index 0 gets 2 = ⌈3/2⌉. -/
theorem claim_C7_round_robin_fair_witness :
    (chunk_plan "7" 4 10 [("n1", node1), ("n2", node1)]).countP
        (fun c => c.node_id == (([("n1", node1), ("n2", node1)].get
          ⟨0, by decide⟩).1))
      = num_chunks 10 4 / 2
    ∨ (chunk_plan "7" 4 10 [("n1", node1), ("n2", node1)]).countP
        (fun c => c.node_id == (([("n1", node1), ("n2", node1)].get
          ⟨0, by decide⟩).1))
      = (num_chunks 10 4 + 2 - 1) / 2 :=
  claim_C7_round_robin_fair "7" 4 10 [("n1", node1), ("n2", node1)]
    (by decide) (by decide) 0 (by decide)

/-! ### Claim C1: download reassembles in ascending start order -/

/-- Filling slots never changes the buffer length. -/
theorem fillSlots_length {α : Type} (f : Nat → α) :
    ∀ (order : List Nat) (buf : List (Option α)),
      (fillSlots f order buf).length = buf.length := by
  intro order
  induction order with
  | nil => intro buf; rfl
  | cons i rest ih =>
      intro buf
      rw [fillSlots, ih, List.length_set]

/-- Pointwise description of the buffer after the schedule has run: slot `j`
holds `some (f j)` when some task `j` of the schedule has finished (and the
slot exists), and is untouched otherwise.  In particular the result does not
depend on the order in which the scheduled tasks finished. -/
theorem fillSlots_getElem {α : Type} (f : Nat → α) :
    ∀ (order : List Nat) (buf : List (Option α)) (j : Nat),
      (fillSlots f order buf)[j]? =
        if j ∈ order ∧ j < buf.length then some (some (f j)) else buf[j]? := by
  intro order
  induction order with
  | nil =>
      intro buf j
      simp [fillSlots]
  | cons i rest ih =>
      intro buf j
      rw [fillSlots, ih, List.length_set]
      by_cases h1 : j ∈ rest ∧ j < buf.length
      · rw [if_pos h1, if_pos ⟨List.mem_cons_of_mem _ h1.1, h1.2⟩]
      · rw [if_neg h1]
        by_cases h2 : j ∈ i :: rest ∧ j < buf.length
        · have hji : j = i := by
            rcases List.mem_cons.1 h2.1 with h | h
            · exact h
            · exact absurd ⟨h, h2.2⟩ h1
          rw [if_pos h2]
          subst hji
          exact List.getElem?_set_eq_of_lt _ h2.2
        · rw [if_neg h2]
          by_cases hji : i = j
          · subst hji
            have hlen : buf.length ≤ i := by
              by_contra hlt
              exact h2 ⟨List.mem_cons_self _ _, Nat.lt_of_not_le hlt⟩
            rw [List.getElem?_eq_none (by simpa using hlen),
              List.getElem?_eq_none hlen]
          · exact List.getElem?_set_ne hji

/-- When the completion schedule is a permutation of the task indices —
i.e. every retrieval eventually finishes, in an arbitrary order — the filled
buffer is exactly the results in input order, independent of the schedule. -/
theorem fillSlots_perm {α : Type} (f : Nat → α) (n : Nat) (order : List Nat)
    (hperm : order.Perm (List.range n)) :
    fillSlots f order (List.replicate n none)
      = (List.range n).map (fun i => some (f i)) := by
  apply List.ext_getElem?
  intro j
  rw [fillSlots_getElem, List.length_replicate]
  by_cases hj : j < n
  · have hmem : j ∈ order := hperm.mem_iff.2 (List.mem_range.2 hj)
    rw [if_pos ⟨hmem, hj⟩, List.getElem?_map, List.getElem?_range hj]
    rfl
  · have hmem : j ∉ order := fun h => hj (List.mem_range.1 (hperm.mem_iff.1 h))
    rw [if_neg (fun hc => hmem hc.1),
      List.getElem?_eq_none (by simpa using Nat.le_of_not_lt hj),
      List.getElem?_eq_none (by simpa using Nat.le_of_not_lt hj)]

/-- Collecting an all-`some` mapped list drops nothing. -/
theorem filterMap_id_map_some {α β : Type} (g : α → β) :
    ∀ l : List α, (l.map (fun i => some (g i))).filterMap id = l.map g := by
  intro l
  induction l with
  | nil => rfl
  | cons a t ih => simp [ih]

/-- Reading each task's result in input-index order recovers
`download_chunk` mapped over the plan. -/
theorem map_taskResult_range (store : String → Option Bytes) (plan : List ChunkMeta) :
    (List.range plan.length).map (taskResult store plan)
      = plan.map (download_chunk store) := by
  apply List.ext_getElem?
  intro j
  rw [List.getElem?_map, List.getElem?_map]
  by_cases hj : j < plan.length
  · rw [List.getElem?_range hj, List.getElem?_eq_getElem hj]
    simp [taskResult, List.getElem?_eq_getElem hj]
  · rw [List.getElem?_eq_none (by simpa using Nat.le_of_not_lt hj),
      List.getElem?_eq_none (Nat.le_of_not_lt hj)]
    rfl

/-- When every chunk of the plan is present on its datanode, the failure
filter drops nothing and each downloaded chunk carries exactly the stored
bytes. -/
theorem filterMap_download_all_success (store : String → Option Bytes) :
    ∀ plan : List ChunkMeta, (∀ c ∈ plan, (store c.chunk_id).isSome) →
      plan.filterMap (download_chunk store)
        = plan.map (fun c =>
            { chunk_id := c.chunk_id, start := c.start,
              data := (store c.chunk_id).getD [] : DChunk }) := by
  intro plan
  induction plan with
  | nil => intro _; rfl
  | cons c rest ih =>
      intro hall
      have hc := hall c (List.mem_cons_self _ _)
      cases hs : store c.chunk_id with
      | none => rw [hs] at hc; cases hc
      | some d =>
          rw [List.filterMap_cons, List.map_cons]
          have hdc : download_chunk store c
              = some { chunk_id := c.chunk_id, start := c.start, data := d } := by
            simp [download_chunk, hs]
          rw [hdc, ih (fun x hx => hall x (List.mem_cons_of_mem _ hx))]
          simp [hs]

/-- The written bytes are the plan's chunks' stored data concatenated in
plan order, for every completion schedule that finishes all chunks. -/
theorem download_eq_of_perm (plan : List ChunkMeta) (store : String → Option Bytes)
    (order : List Nat) (hperm : order.Perm (List.range plan.length))
    (hall : ∀ c ∈ plan, (store c.chunk_id).isSome) :
    download plan store order
      = (plan.map (fun c => (store c.chunk_id).getD [])).flatten := by
  unfold download
  dsimp only
  rw [fillSlots_perm _ _ _ hperm, filterMap_id_map_some, map_taskResult_range]
  have hfm : (plan.map (download_chunk store)).filterMap id
      = plan.filterMap (download_chunk store) := by
    rw [List.filterMap_map]
    rfl
  rw [hfm, filterMap_download_all_success store plan hall, List.map_map]
  rfl

/-- Claim C1: for a download of a file whose chunks are all retrieved
successfully, the bytes written to the output file are the chunks' stored
data concatenated in ascending `start` order — the plan's order, whose
starts are strictly increasing — for every completion order of the parallel
retrievals (the completion schedule `order` is universally quantified and
absent from the conclusion, so writing in retrieval-completion order is
excluded). -/
theorem claim_C1_download_ascending_offsets (fid : String) (cs fsz : Nat)
    (active : List (String × NodeRec)) (store : String → Option Bytes)
    (order : List Nat) (hcs : 0 < cs)
    (hperm : order.Perm (List.range (chunk_plan fid cs fsz active).length))
    (hall : ∀ c ∈ chunk_plan fid cs fsz active, (store c.chunk_id).isSome) :
    download (chunk_plan fid cs fsz active) store order
      = ((chunk_plan fid cs fsz active).map
          (fun c => (store c.chunk_id).getD [])).flatten
    ∧ (chunk_plan fid cs fsz active).Pairwise (fun a b => a.start < b.start) := by
  refine ⟨download_eq_of_perm _ _ _ hperm hall, ?_⟩
  rw [chunk_plan, List.pairwise_map]
  exact List.Pairwise.imp (fun hab => (Nat.mul_lt_mul_right hcs).2 hab)
    (List.pairwise_lt_range _)

/-- The datanode contents backing the Claim C1 witness: all three chunks of
the plan for file_id "100", chunk_size 2, filesize 5 are stored. -/
def store0 : String → Option Bytes := fun cid =>
  if cid = "100_0" then some [10, 11]
  else if cid = "100_1" then some [12, 13]
  else if cid = "100_2" then some [14]
  else none

/-- Witness for Claim C1: 3 chunks, one node, completion order 2, 0, 1. -/
theorem claim_C1_download_ascending_offsets_witness :
    download (chunk_plan "100" 2 5 [("A", node1)]) store0 [2, 0, 1]
      = ((chunk_plan "100" 2 5 [("A", node1)]).map
          (fun c => (store0 c.chunk_id).getD [])).flatten
    ∧ (chunk_plan "100" 2 5 [("A", node1)]).Pairwise
        (fun a b => a.start < b.start) :=
  claim_C1_download_ascending_offsets "100" 2 5 [("A", node1)] store0 [2, 0, 1]
    (by decide) (by decide) (by decide)

end DFS
